import Mathlib

/-!
Verification of the FocusMode shortcut organizer (move.go) against its
natural-language specification.  The Go code is shallowly embedded: the
filesystem is an explicit value threaded through every operation, `os.Stat`
existence checks become lookups in that value, `os.Rename` becomes a pure
update guarded by an oracle `renameOk` that models whether the OS-level
rename call succeeds (permissions, cross-device links, ...), and Go errors
become an inductive type whose constructors correspond one-to-one to the
`fmt.Errorf` sites of the source.
-/

/-- One directory entry: the directory it lives in, its file name, and
whether it is itself a directory (`os.DirEntry.IsDir`). -/
structure FSEntry where
  dir : String
  name : String
  isDir : Bool
deriving DecidableEq

/-- The filesystem state.  `dirs` is the set of directory paths for which
`os.Stat` succeeds and `os.ReadDir` can list entries; `entries` are the
entries of those directories; `renameOk old new` tells whether the
OS-level `os.Rename old new` call itself succeeds (the Go code cannot
observe why it fails, only that it does). -/
structure FS where
  dirs : List String
  entries : List FSEntry
  renameOk : String → String → Bool

/-- `filepath.Join dir name` for the simple two-component joins the code
performs (no cleaning is needed for the properties at stake). -/
def joinPath (dir name : String) : String := dir ++ "/" ++ name

/-- `os.Stat (joinPath dir name)` succeeds for a file: some entry of the
filesystem has this directory and name. -/
def FS.existsFile (fs : FS) (dir name : String) : Bool :=
  fs.entries.any (fun e => e.dir == dir && e.name == name)

/-- Effect of a successful `os.Rename (joinPath fromDir name) (joinPath toDir name)`
on the entry list: renaming a path to itself is a no-op; otherwise any entry
already at the target is replaced and the source entry now lives in `toDir`. -/
def renameEntries (entries : List FSEntry) (fromDir name toDir : String) : List FSEntry :=
  (entries.filter (fun e => !(e.dir == toDir && e.name == name))).map
    (fun e => if e.dir == fromDir && e.name == name then { e with dir := toDir } else e)

/-- See `renameEntries` for the entry-level effect. -/
def FS.rename (fs : FS) (fromDir name toDir : String) : FS :=
  if fromDir == toDir then fs
  else { fs with entries := renameEntries fs.entries fromDir name toDir }

/-- The ambient process environment: the platform-resolved desktop path
(`getDesktopPath`, move.go:281-303, abstracting the GOOS switch) and the
user home directory (`os.UserHomeDir`). -/
structure Env where
  desktopPath : String
  homeDir : String

/-- The error outcomes of the two mover primitives, one constructor per
`fmt.Errorf` site: `notFound` for "shortcut not found", `alreadyExists`
for "already exists on desktop", `moveFailed` for a wrapped `os.Rename`
error ("error moving/restoring shortcut"). -/
inductive MoveError where
  | notFound (name : String)
  | alreadyExists (name : String)
  | moveFailed (name : String)
deriving DecidableEq

/-- Embeds `moveDesktopShortcutFromPath` (move.go:312-333): resolve an empty
`desktopPath` argument via `getDesktopPath`; fail with the not-found error
when `oldPath` does not exist; otherwise attempt the rename, failing with
the move-failed error when `os.Rename` itself fails. -/
def moveDesktopShortcutFromPath (env : Env) (fs : FS)
    (shortcutName destinationDir desktopPath : String) : Except MoveError FS :=
  let dp := if desktopPath == "" then env.desktopPath else desktopPath
  if fs.existsFile dp shortcutName then
    if fs.renameOk (joinPath dp shortcutName) (joinPath destinationDir shortcutName) then
      .ok (fs.rename dp shortcutName destinationDir)
    else
      .error (.moveFailed shortcutName)
  else
    .error (.notFound shortcutName)

/-- Embeds `moveDesktopShortcut` (move.go:306-308): delegate with an empty
desktop path, so the platform desktop is used. -/
def moveDesktopShortcut (env : Env) (fs : FS) (shortcutName destinationDir : String) :
    Except MoveError FS :=
  moveDesktopShortcutFromPath env fs shortcutName destinationDir ""

/-- Embeds `restoreShortcutToDesktop` (move.go:336-359): fail with the
not-found error when the source copy is missing; fail with the
already-exists error when a same-named file is already on the desktop
(checked before any rename, so nothing is overwritten); otherwise rename
the file onto the desktop, failing with the move-failed error when
`os.Rename` itself fails. -/
def restoreShortcutToDesktop (env : Env) (fs : FS) (shortcutName sourceDir : String) :
    Except MoveError FS :=
  if fs.existsFile sourceDir shortcutName then
    if fs.existsFile env.desktopPath shortcutName then
      .error (.alreadyExists shortcutName)
    else
      if fs.renameOk (joinPath sourceDir shortcutName) (joinPath env.desktopPath shortcutName) then
        .ok (fs.rename sourceDir shortcutName env.desktopPath)
      else
        .error (.moveFailed shortcutName)
  else
    .error (.notFound shortcutName)

/-- Embeds `getShortcutsInFolder` (move.go:362-376): `os.ReadDir` the folder
(failing when it is unreadable) and keep the names of the non-directory
entries. -/
def getShortcutsInFolder (fs : FS) (folderPath : String) : Except String (List String) :=
  if fs.dirs.contains folderPath then
    .ok ((fs.entries.filter (fun e => e.dir == folderPath && !e.isDir)).map (fun e => e.name))
  else
    .error "error reading folder"

/-- Embeds `getAllDesktopShortcutsFromPath` (move.go:430-452): resolve an
empty argument via `getDesktopPath`, `os.ReadDir` the desktop, and keep the
names of the non-directory entries. -/
def getAllDesktopShortcutsFromPath (env : Env) (fs : FS) (desktopPath : String) :
    Except String (List String) :=
  let dp := if desktopPath == "" then env.desktopPath else desktopPath
  if fs.dirs.contains dp then
    .ok ((fs.entries.filter (fun e => e.dir == dp && !e.isDir)).map (fun e => e.name))
  else
    .error "error reading desktop directory"

/-- Embeds `getAllDesktopShortcuts` (move.go:424-426). -/
def getAllDesktopShortcuts (env : Env) (fs : FS) : Except String (List String) :=
  getAllDesktopShortcutsFromPath env fs ""

/-- Embeds `ModeConfig` (move.go:268-272). -/
structure ModeConfig where
  destination : String
  shortcuts : List String
  moveAll : Bool
deriving DecidableEq

/-- Embeds `Config` (move.go:275-278); the Go `map[string]ModeConfig` is an
association list with unique keys. -/
structure Config where
  modes : List (String × ModeConfig)
  defaultMode : String

/-- Embeds `getAvailableModes` (move.go:415-421): the mode names (the Go map
iteration order is unspecified; the model uses the stored order). -/
def getAvailableModes (c : Config) : List String :=
  c.modes.map (fun m => m.1)

/-- The mode-lookup error of `getModeConfig` (move.go:403): the formatted
message names the requested mode and carries the available-mode list. -/
inductive ConfigError where
  | modeNotFound (modeName : String) (availableModes : List String)
deriving DecidableEq

/-- State-passing embedding of `(c *Config).getModeConfig` (move.go:400-412):
the result together with the registry state after the call.  Indexing a Go
map whose values are structs copies the value, and the method never assigns
back into `c.Modes`, so defaulting an empty destination touches only the
local copy and the post-call registry equals the input. -/
def getModeConfigSt (c : Config) (modeName : String) :
    Except ConfigError ModeConfig × Config :=
  match c.modes.lookup modeName with
  | none => (.error (.modeNotFound modeName (getAvailableModes c)), c)
  | some modeConfig =>
      if modeConfig.destination == "" then
        (.ok { modeConfig with destination := modeName ++ "_Shortcuts" }, c)
      else
        (.ok modeConfig, c)

/-- The value returned by `getModeConfig` (move.go:400-412). -/
def getModeConfig (c : Config) (modeName : String) : Except ConfigError ModeConfig :=
  (getModeConfigSt c modeName).1

/-- Embeds `CategoryConfig` (move.go:462-466). -/
structure CategoryConfig where
  name : String
  icon : String
  keywords : List String
deriving DecidableEq

/-- Embeds `CategoriesConfig` (move.go:469-472); the Go
`map[string]CategoryConfig` is an association list with unique keys. -/
structure CategoriesConfig where
  categories : List (String × CategoryConfig)
  categoryOrder : List String

/-- Embeds `strings.ToLower` at the character-list level (`String.toLower`
maps `Char.toLower` over the characters; this form evaluates by kernel
reduction). -/
def strToLower (s : String) : String :=
  String.mk (s.data.map Char.toLower)

/-- The inner keyword loop of `categorizeShortcut` (move.go:541-545):
does some keyword of the category occur, lower-cased, inside the
lower-cased name (`strings.Contains`)? -/
def keywordMatches (nameLower : String) (category : CategoryConfig) : Bool :=
  category.keywords.any (fun keyword => decide (List.IsInfix (strToLower keyword).data nameLower.data))

/-- The category loop of `categorizeShortcut` (move.go:530-546): walk
`category_order`, skip the literal "other" entry and ids absent from the
category map, and return the first id one of whose keywords matches. -/
def findFirstCategory (cfg : CategoriesConfig) (nameLower : String) :
    List String → Option String
  | [] => none
  | categoryID :: rest =>
      if categoryID == "other" then findFirstCategory cfg nameLower rest
      else
        match cfg.categories.lookup categoryID with
        | none => findFirstCategory cfg nameLower rest
        | some category =>
            if keywordMatches nameLower category then some categoryID
            else findFirstCategory cfg nameLower rest

/-- Embeds `categorizeShortcut` (move.go:526-549): lower-case the name, scan
the ordered categories first-match-wins, and fall back to "other". -/
def categorizeShortcut (name : String) (categoriesConfig : CategoriesConfig) : String :=
  match findFirstCategory categoriesConfig (strToLower name) categoriesConfig.categoryOrder with
  | some categoryID => categoryID
  | none => "other"

/-- Spec-side restatement of one step of the category scan, used to compare
`categorizeShortcut` with the specification's first-match-wins description:
an ordered entry matches when it is not the literal "other" and some keyword
of its category is, case-insensitively, a substring of the name. -/
def specCategoryMatches (cfg : CategoriesConfig) (nameLower : String)
    (categoryID : String) : Bool :=
  categoryID != "other" &&
    (match cfg.categories.lookup categoryID with
     | some category => keywordMatches nameLower category
     | none => false)

/-- The per-item report of the organization engine: the spec's MoveOutcome
(name, success flag, failure reason), realized in main's move loop by the
per-item print plus the success/fail counters. -/
structure MoveOutcome where
  name : String
  succeeded : Bool
  errorDetail : Option MoveError
deriving DecidableEq

/-- The shortcut-moving loop of `main` (move.go:1073-1091): for each
candidate in order, either simulate a success (dry run) or attempt
`moveDesktopShortcut`, recording the per-item outcome and continuing with
the remaining candidates whatever the result. -/
def moveShortcutsLoop (env : Env) (dryRun : Bool) (destinationFolder : String)
    (fs : FS) : List String → FS × List MoveOutcome
  | [] => (fs, [])
  | shortcutName :: rest =>
      if dryRun then
        let r := moveShortcutsLoop env dryRun destinationFolder fs rest
        (r.1, ⟨shortcutName, true, none⟩ :: r.2)
      else
        match moveDesktopShortcut env fs shortcutName destinationFolder with
        | .ok fs1 =>
            let r := moveShortcutsLoop env dryRun destinationFolder fs1 rest
            (r.1, ⟨shortcutName, true, none⟩ :: r.2)
        | .error e =>
            let r := moveShortcutsLoop env dryRun destinationFolder fs rest
            (r.1, ⟨shortcutName, false, some e⟩ :: r.2)

/-- The candidate-selection step of `main` (move.go:1056-1071): with
`move_all`, every file currently on the desktop; otherwise the configured
shortcut list in declared order. -/
def selectShortcutsToMove (env : Env) (fs : FS) (modeConfig : ModeConfig) :
    Except String (List String) :=
  if modeConfig.moveAll then getAllDesktopShortcuts env fs
  else .ok modeConfig.shortcuts

/-- The restore loop of `restoreShortcutsForMode` (move.go:841-855): for
each shortcut found in the holding folder, either simulate a success (dry
run) or attempt `restoreShortcutToDesktop`, recording the per-item outcome
and continuing whatever the result. -/
def restoreLoop (env : Env) (dryRun : Bool) (sourceFolder : String)
    (fs : FS) : List String → FS × List MoveOutcome
  | [] => (fs, [])
  | shortcutName :: rest =>
      if dryRun then
        let r := restoreLoop env dryRun sourceFolder fs rest
        (r.1, ⟨shortcutName, true, none⟩ :: r.2)
      else
        match restoreShortcutToDesktop env fs shortcutName sourceFolder with
        | .ok fs1 =>
            let r := restoreLoop env dryRun sourceFolder fs1 rest
            (r.1, ⟨shortcutName, true, none⟩ :: r.2)
        | .error e =>
            let r := restoreLoop env dryRun sourceFolder fs rest
            (r.1, ⟨shortcutName, false, some e⟩ :: r.2)

/-- How a run of `restoreShortcutsForMode` ends: a config-lookup failure
(`os.Exit(1)`), a missing holding folder (prints "Nothing to restore" and
returns normally), an unreadable holding folder (`os.Exit(1)`), or the
per-item outcomes of the restore loop (covering the empty-folder early
return as the empty outcome list). -/
inductive RestoreResult where
  | configError (e : ConfigError)
  | sourceMissing (sourceFolder : String)
  | readError
  | done (outcomes : List MoveOutcome)
deriving DecidableEq

/-- Embeds `restoreShortcutsForMode` (move.go:796-869): resolve the mode,
locate its holding folder under the home directory, return normally when
that folder does not exist, list the files it currently holds, and run the
restore loop over exactly that listing. -/
def restoreShortcutsForMode (env : Env) (fs : FS) (config : Config)
    (modeName : String) (dryRun : Bool) : FS × RestoreResult :=
  match getModeConfig config modeName with
  | .error e => (fs, .configError e)
  | .ok modeConfig =>
      let sourceFolder := joinPath env.homeDir modeConfig.destination
      if fs.dirs.contains sourceFolder then
        match getShortcutsInFolder fs sourceFolder with
        | .error _ => (fs, .readError)
        | .ok shortcutsToRestore =>
            let r := restoreLoop env dryRun sourceFolder fs shortcutsToRestore
            (r.1, .done r.2)
      else
        (fs, .sourceMissing sourceFolder)

/-- The session states of the FocusSession state machine (present in the
tests as `StateRunning = 0`, `StatePaused = 1`, `StateCompleted = 2`,
`StateInterrupted = 3`; the session source itself is not under src/). -/
inductive SessionState where
  | running
  | paused
  | completed
  | interrupted
deriving DecidableEq

/-- The FocusSession record as the tests construct it: duration and the
pause bookkeeping are `time.Duration`/`time.Time` values, modelled as
integer nanosecond counts. -/
structure FocusSession where
  duration : Int
  mode : String
  startTime : Int
  pausedAt : Option Int
  pausedTotal : Int
  state : SessionState
  autoRestore : Bool
deriving DecidableEq

/-- The failures of session start: an invalid (non-positive) duration, an
unknown mode (carrying the available modes), or an unreadable desktop when
the mode moves every desktop entry. -/
inductive StartError where
  | invalidDuration (minutes : Int)
  | invalidMode (modeName : String) (availableModes : List String)
  | desktopUnreadable
deriving DecidableEq

/-- Modelled from the spec: `startFocusSession` — the session source file is
not under src/ (only move_test.go exercises it); spec section 4.5 describes
it.  Validates `duration > 0` first (failing with the invalid-duration error
before anything is touched), resolves the mode (failing with the
invalid-mode error carrying the available modes), then creates a session in
Running with `startTime = now` and `pausedTotal = 0` and immediately runs
the organization loop to move the mode's shortcuts out, returning the
resulting per-item outcomes together with the new filesystem state; on any
failure the filesystem is returned unchanged. -/
def startFocusSession (env : Env) (fs : FS) (config : Config) (modeName : String)
    (durationMinutes : Int) (autoRestore : Bool) (now : Int) :
    Except StartError (FocusSession × List MoveOutcome) × FS :=
  if durationMinutes ≤ 0 then (.error (.invalidDuration durationMinutes), fs)
  else
    match getModeConfig config modeName with
    | .error _ => (.error (.invalidMode modeName (getAvailableModes config)), fs)
    | .ok modeConfig =>
        match selectShortcutsToMove env fs modeConfig with
        | .error _ => (.error .desktopUnreadable, fs)
        | .ok candidates =>
            let destinationFolder := joinPath env.homeDir modeConfig.destination
            let r := moveShortcutsLoop env false destinationFolder fs candidates
            (.ok ({ duration := durationMinutes * 60000000000, mode := modeName,
                    startTime := now, pausedAt := none, pausedTotal := 0,
                    state := .running, autoRestore := autoRestore }, r.2), r.1)

/-- A concrete environment for evaluating the theorems on sample data. -/
def envW : Env := { desktopPath := "/home/u/Desktop", homeDir := "/home/u" }

/-- A concrete filesystem: two shortcut files and a sub-directory on the
desktop, one shortcut already held in the focus folder; every OS-level
rename succeeds. -/
def fsW : FS :=
  { dirs := ["/home/u/Desktop", "/home/u/FocusMode_Shortcuts"],
    entries := [{ dir := "/home/u/Desktop", name := "a.lnk", isDir := false },
                { dir := "/home/u/Desktop", name := "b.lnk", isDir := false },
                { dir := "/home/u/Desktop", name := "docs", isDir := true },
                { dir := "/home/u/FocusMode_Shortcuts", name := "c.lnk", isDir := false }],
    renameOk := fun _ _ => true }

/-- A concrete filesystem whose focus holding folder does not exist. -/
def fsNoHolding : FS :=
  { dirs := ["/home/u/Desktop"],
    entries := [{ dir := "/home/u/Desktop", name := "a.lnk", isDir := false }],
    renameOk := fun _ _ => true }

/-- A concrete registry: one mode with an empty destination (to be
defaulted) and one with an explicit destination. -/
def cW : Config :=
  { modes := [("focusmode", { destination := "", shortcuts := ["a.lnk"], moveAll := false }),
              ("gamemode",
               { destination := "Game_Shortcuts", shortcuts := [], moveAll := true })],
    defaultMode := "focusmode" }

/-- A concrete registry whose focus mode points at the holding folder of
`fsW`. -/
def cW2 : Config :=
  { modes := [("focusmode",
      { destination := "FocusMode_Shortcuts", shortcuts := ["a.lnk"], moveAll := false })],
    defaultMode := "focusmode" }

/-- A concrete categories configuration mirroring the built-in default rule
set (move.go:502-523). -/
def catW : CategoriesConfig :=
  { categories := [("game", { name := "Games", icon := "g", keywords := ["game", "steam", "epic"] }),
                   ("development",
                    { name := "Development Tools", icon := "d",
                      keywords := ["code", "docker", "git"] }),
                   ("work",
                    { name := "Work/Productivity", icon := "w",
                      keywords := ["office", "word", "excel"] })],
    categoryOrder := ["game", "development", "work", "other"] }

theorem existsFile_rename_self (fs : FS) (fromDir name toDir : String)
    (h : fs.existsFile fromDir name = true) :
    (fs.rename fromDir name toDir).existsFile toDir name = true := by
  unfold FS.rename
  by_cases hft : fromDir = toDir
  · subst hft
    simp [h]
  · rw [if_neg (by simp [hft])]
    simp only [FS.existsFile, List.any_eq_true, renameEntries] at h ⊢
    obtain ⟨e, he, hp⟩ := h
    rw [Bool.and_eq_true, beq_iff_eq, beq_iff_eq] at hp
    obtain ⟨hd, hn⟩ := hp
    refine ⟨{ e with dir := toDir }, ?_, by simp [hn]⟩
    rw [List.mem_map]
    refine ⟨e, ?_, by simp [hd, hn]⟩
    rw [List.mem_filter]
    exact ⟨he, by simp [hd, hn, hft]⟩

theorem existsFile_rename_preserved (fs : FS) (fromDir name toDir nm : String)
    (hdest : fs.existsFile toDir nm = true) (hsrc : fs.existsFile fromDir name = true) :
    (fs.rename fromDir name toDir).existsFile toDir nm = true := by
  by_cases hnm : nm = name
  · subst hnm
    exact existsFile_rename_self fs fromDir nm toDir hsrc
  · unfold FS.rename
    by_cases hft : fromDir = toDir
    · simp only [hft, beq_self_eq_true, if_true]
      exact hdest
    · rw [if_neg (by simp [hft])]
      simp only [FS.existsFile, List.any_eq_true, renameEntries] at hdest ⊢
      obtain ⟨e, he, hp⟩ := hdest
      rw [Bool.and_eq_true, beq_iff_eq, beq_iff_eq] at hp
      obtain ⟨hd, hn⟩ := hp
      refine ⟨e, ?_, by simp [hd, hn]⟩
      rw [List.mem_map]
      refine ⟨e, ?_, ?_⟩
      · rw [List.mem_filter]
        exact ⟨he, by simp [hn, hnm]⟩
      · simp [hn, hnm]

theorem existsFile_rename_src (fs : FS) (fromDir name toDir : String) (hft : fromDir ≠ toDir) :
    (fs.rename fromDir name toDir).existsFile fromDir name = false := by
  unfold FS.rename
  rw [if_neg (by simp [hft])]
  simp only [FS.existsFile, renameEntries, List.any_eq_false]
  intro x hx
  rw [List.mem_map] at hx
  obtain ⟨e, he, hfe⟩ := hx
  subst hfe
  by_cases hc : (e.dir == fromDir && e.name == name) = true
  · simp [hc, Ne.symm hft]
  · rw [if_neg hc]
    simp only [Bool.not_eq_true]
    exact Bool.eq_false_iff.mpr hc

theorem moveDesktopShortcut_ok_inv (env : Env) (fs : FS) (n destDir : String) (fs1 : FS)
    (h : moveDesktopShortcut env fs n destDir = .ok fs1) :
    fs.existsFile env.desktopPath n = true ∧ fs1 = fs.rename env.desktopPath n destDir := by
  simp only [moveDesktopShortcut, moveDesktopShortcutFromPath, beq_self_eq_true, if_true] at h
  split at h
  · split at h
    · exact ⟨by assumption, (Except.ok.inj h).symm⟩
    · exact absurd h (by simp)
  · exact absurd h (by simp)

theorem moveLoop_names (env : Env) (dryRun : Bool) (destinationFolder : String) :
    ∀ (names : List String) (fs : FS),
      ((moveShortcutsLoop env dryRun destinationFolder fs names).2).map (fun o => o.name) =
        names := by
  intro names
  induction names with
  | nil => intro fs; simp [moveShortcutsLoop]
  | cons n rest ih =>
      intro fs
      cases dryRun with
      | true => simp [moveShortcutsLoop, ih]
      | false =>
          simp only [moveShortcutsLoop, Bool.false_eq_true, if_false]
          cases hmv : moveDesktopShortcut env fs n destinationFolder with
          | ok fs1 => simp [ih]
          | error e => simp [ih]

theorem moveLoop_preserves_dest (env : Env) (destinationFolder nm : String) :
    ∀ (names : List String) (fs : FS), fs.existsFile destinationFolder nm = true →
      ((moveShortcutsLoop env false destinationFolder fs names).1).existsFile
        destinationFolder nm = true := by
  intro names
  induction names with
  | nil => intro fs h; simpa [moveShortcutsLoop] using h
  | cons n rest ih =>
      intro fs h
      simp only [moveShortcutsLoop, Bool.false_eq_true, if_false]
      cases hmv : moveDesktopShortcut env fs n destinationFolder with
      | ok fs1 =>
          obtain ⟨hex, rfl⟩ := moveDesktopShortcut_ok_inv env fs n destinationFolder fs1 hmv
          exact ih _ (existsFile_rename_preserved fs env.desktopPath n destinationFolder nm h hex)
      | error e => exact ih fs h

theorem moveLoop_success_moved (env : Env) (destinationFolder : String) :
    ∀ (names : List String) (fs : FS) (o : MoveOutcome),
      o ∈ (moveShortcutsLoop env false destinationFolder fs names).2 → o.succeeded = true →
      ((moveShortcutsLoop env false destinationFolder fs names).1).existsFile
        destinationFolder o.name = true := by
  intro names
  induction names with
  | nil => intro fs o ho; simp [moveShortcutsLoop] at ho
  | cons n rest ih =>
      intro fs o
      simp only [moveShortcutsLoop, Bool.false_eq_true, if_false]
      cases hmv : moveDesktopShortcut env fs n destinationFolder with
      | ok fs1 =>
          intro ho hs
          obtain ⟨hex, rfl⟩ := moveDesktopShortcut_ok_inv env fs n destinationFolder fs1 hmv
          rcases List.mem_cons.mp ho with rfl | htl
          · exact moveLoop_preserves_dest env destinationFolder n rest _
              (existsFile_rename_self fs env.desktopPath n destinationFolder hex)
          · exact ih _ o htl hs
      | error e =>
          intro ho hs
          rcases List.mem_cons.mp ho with rfl | htl
          · simp at hs
          · exact ih fs o htl hs

theorem moveLoop_failure_reason (env : Env) (dryRun : Bool) (destinationFolder : String) :
    ∀ (names : List String) (fs : FS) (o : MoveOutcome),
      o ∈ (moveShortcutsLoop env dryRun destinationFolder fs names).2 → o.succeeded = false →
      ∃ e, o.errorDetail = some e := by
  intro names
  induction names with
  | nil => intro fs o ho; simp [moveShortcutsLoop] at ho
  | cons n rest ih =>
      intro fs o
      cases dryRun with
      | true =>
          simp only [moveShortcutsLoop, if_true]
          intro ho hs
          rcases List.mem_cons.mp ho with rfl | htl
          · simp at hs
          · exact ih fs o htl hs
      | false =>
          simp only [moveShortcutsLoop, Bool.false_eq_true, if_false]
          cases hmv : moveDesktopShortcut env fs n destinationFolder with
          | ok fs1 =>
              intro ho hs
              rcases List.mem_cons.mp ho with rfl | htl
              · simp at hs
              · exact ih fs1 o htl hs
          | error e =>
              intro ho hs
              rcases List.mem_cons.mp ho with rfl | htl
              · exact ⟨e, rfl⟩
              · exact ih fs o htl hs

/-- Claim C1: in the organization engine's move loop (no dry run), every
candidate is attempted in order and yields exactly one recorded outcome —
the outcome names are exactly the candidate list, so one failing entry never
prevents the remaining candidates from being attempted — every recorded
failure carries its reason, and every recorded success is present at the
destination folder afterwards. -/
theorem c1_organize_isolates_failures (env : Env) (destinationFolder : String) (fs : FS)
    (names : List String) :
    ((moveShortcutsLoop env false destinationFolder fs names).2).map (fun o => o.name) =
      names ∧
    (∀ o, o ∈ (moveShortcutsLoop env false destinationFolder fs names).2 →
      o.succeeded = true →
      ((moveShortcutsLoop env false destinationFolder fs names).1).existsFile
        destinationFolder o.name = true) ∧
    (∀ o, o ∈ (moveShortcutsLoop env false destinationFolder fs names).2 →
      o.succeeded = false → ∃ e, o.errorDetail = some e) :=
  ⟨moveLoop_names env false destinationFolder names fs,
   fun o ho hs => moveLoop_success_moved env destinationFolder names fs o ho hs,
   fun o ho hs => moveLoop_failure_reason env false destinationFolder names fs o ho hs⟩

/-- Witness for C1 at a concrete batch whose middle candidate does not exist
on the desktop: all three candidates are attempted in order, and the first
(successful) one really is in the holding folder afterwards. -/
theorem c1_organize_isolates_failures_witness :
    ((moveShortcutsLoop envW false "/home/u/FocusMode_Shortcuts" fsW
        ["a.lnk", "missing.lnk", "b.lnk"]).2).map (fun o => o.name) =
      ["a.lnk", "missing.lnk", "b.lnk"] ∧
    ((moveShortcutsLoop envW false "/home/u/FocusMode_Shortcuts" fsW
        ["a.lnk", "missing.lnk", "b.lnk"]).1).existsFile
      "/home/u/FocusMode_Shortcuts" "a.lnk" = true :=
  ⟨(c1_organize_isolates_failures envW "/home/u/FocusMode_Shortcuts" fsW
      ["a.lnk", "missing.lnk", "b.lnk"]).1,
   (c1_organize_isolates_failures envW "/home/u/FocusMode_Shortcuts" fsW
      ["a.lnk", "missing.lnk", "b.lnk"]).2.1 ⟨"a.lnk", true, none⟩ (by decide) (by decide)⟩

theorem moveLoop_dryRun_frame (env : Env) (destinationFolder : String) :
    ∀ (names : List String) (fs : FS),
      moveShortcutsLoop env true destinationFolder fs names =
        (fs, names.map (fun n => ⟨n, true, none⟩)) := by
  intro names
  induction names with
  | nil => intro fs; simp [moveShortcutsLoop]
  | cons n rest ih => intro fs; simp [moveShortcutsLoop, ih]

theorem restoreLoop_dryRun_frame (env : Env) (sourceFolder : String) :
    ∀ (names : List String) (fs : FS),
      restoreLoop env true sourceFolder fs names =
        (fs, names.map (fun n => ⟨n, true, none⟩)) := by
  intro names
  induction names with
  | nil => intro fs; simp [restoreLoop]
  | cons n rest ih => intro fs; simp [restoreLoop, ih]

theorem restoreLoop_names (env : Env) (dryRun : Bool) (sourceFolder : String) :
    ∀ (names : List String) (fs : FS),
      ((restoreLoop env dryRun sourceFolder fs names).2).map (fun o => o.name) = names := by
  intro names
  induction names with
  | nil => intro fs; simp [restoreLoop]
  | cons n rest ih =>
      intro fs
      cases dryRun with
      | true => simp [restoreLoop, ih]
      | false =>
          simp only [restoreLoop, Bool.false_eq_true, if_false]
          cases hmv : restoreShortcutToDesktop env fs n sourceFolder with
          | ok fs1 => simp [ih]
          | error e => simp [ih]

/-- Claim C9: with the dry-run flag set, neither the move loop of `main` nor
the restore loop performs any rename — the filesystem value is returned
unchanged, so the desktop and every destination folder keep exactly their
contents — while one simulated success outcome is reported for every
candidate. -/
theorem c9_dryRun_simulates (env : Env) (destinationFolder sourceFolder : String)
    (fs : FS) (names : List String) :
    moveShortcutsLoop env true destinationFolder fs names =
      (fs, names.map (fun n => ⟨n, true, none⟩)) ∧
    restoreLoop env true sourceFolder fs names =
      (fs, names.map (fun n => ⟨n, true, none⟩)) :=
  ⟨moveLoop_dryRun_frame env destinationFolder names fs,
   restoreLoop_dryRun_frame env sourceFolder names fs⟩

/-- Claim C8: the move-out primitive fails with the not-found error when the
source file does not exist (no rename is attempted, so no filesystem value
is produced); otherwise it renames the file to the destination — the file
is really at the destination afterwards — and reports the move-failed error
when the OS-level rename itself fails. -/
theorem c8_moveOut_primitive (env : Env) (fs : FS)
    (shortcutName destinationDir desktopPath : String) (hdp : desktopPath ≠ "") :
    (fs.existsFile desktopPath shortcutName = false →
      moveDesktopShortcutFromPath env fs shortcutName destinationDir desktopPath =
        .error (.notFound shortcutName)) ∧
    (fs.existsFile desktopPath shortcutName = true →
      fs.renameOk (joinPath desktopPath shortcutName)
          (joinPath destinationDir shortcutName) = true →
      moveDesktopShortcutFromPath env fs shortcutName destinationDir desktopPath =
        .ok (fs.rename desktopPath shortcutName destinationDir) ∧
      (fs.rename desktopPath shortcutName destinationDir).existsFile
        destinationDir shortcutName = true) ∧
    (fs.existsFile desktopPath shortcutName = true →
      fs.renameOk (joinPath desktopPath shortcutName)
          (joinPath destinationDir shortcutName) = false →
      moveDesktopShortcutFromPath env fs shortcutName destinationDir desktopPath =
        .error (.moveFailed shortcutName)) := by
  have hdp2 : (desktopPath == "") = false := beq_eq_false_iff_ne.mpr hdp
  refine ⟨?_, ?_, ?_⟩
  · intro h1
    simp [moveDesktopShortcutFromPath, hdp2, h1]
  · intro h1 h2
    refine ⟨?_, existsFile_rename_self fs desktopPath shortcutName destinationDir h1⟩
    simp [moveDesktopShortcutFromPath, hdp2, h1, h2]
  · intro h1 h2
    simp [moveDesktopShortcutFromPath, hdp2, h1, h2]

/-- Witness for C8: on the sample filesystem, moving the existing `a.lnk`
succeeds and lands in the holding folder, and moving a missing name fails
with the not-found error. -/
theorem c8_moveOut_primitive_witness :
    (moveDesktopShortcutFromPath envW fsW "a.lnk" "/home/u/FocusMode_Shortcuts"
        "/home/u/Desktop" =
      .ok (fsW.rename "/home/u/Desktop" "a.lnk" "/home/u/FocusMode_Shortcuts") ∧
     (fsW.rename "/home/u/Desktop" "a.lnk" "/home/u/FocusMode_Shortcuts").existsFile
       "/home/u/FocusMode_Shortcuts" "a.lnk" = true) ∧
    moveDesktopShortcutFromPath envW fsW "missing.lnk" "/home/u/FocusMode_Shortcuts"
        "/home/u/Desktop" =
      .error (.notFound "missing.lnk") :=
  ⟨(c8_moveOut_primitive envW fsW "a.lnk" "/home/u/FocusMode_Shortcuts" "/home/u/Desktop"
      (by decide)).2.1 (by decide) (by decide),
   (c8_moveOut_primitive envW fsW "missing.lnk" "/home/u/FocusMode_Shortcuts" "/home/u/Desktop"
      (by decide)).1 (by decide)⟩

/-- Claim C2: restoring a shortcut fails with the not-found error when the
source copy is missing; when a same-named file already exists on the
desktop it fails with the already-exists error — and a success is only ever
produced when no desktop copy pre-existed, so nothing is overwritten;
otherwise the file is renamed onto the desktop (present on the desktop and
gone from the holding folder afterwards). -/
theorem c2_restore_no_overwrite (env : Env) (fs : FS) (shortcutName sourceDir : String) :
    (fs.existsFile sourceDir shortcutName = false →
      restoreShortcutToDesktop env fs shortcutName sourceDir =
        .error (.notFound shortcutName)) ∧
    (fs.existsFile sourceDir shortcutName = true →
      fs.existsFile env.desktopPath shortcutName = true →
      restoreShortcutToDesktop env fs shortcutName sourceDir =
        .error (.alreadyExists shortcutName)) ∧
    (∀ fs1, restoreShortcutToDesktop env fs shortcutName sourceDir = .ok fs1 →
      fs.existsFile env.desktopPath shortcutName = false) ∧
    (fs.existsFile sourceDir shortcutName = true →
      fs.existsFile env.desktopPath shortcutName = false →
      fs.renameOk (joinPath sourceDir shortcutName)
          (joinPath env.desktopPath shortcutName) = true →
      restoreShortcutToDesktop env fs shortcutName sourceDir =
        .ok (fs.rename sourceDir shortcutName env.desktopPath) ∧
      (fs.rename sourceDir shortcutName env.desktopPath).existsFile
        env.desktopPath shortcutName = true ∧
      (fs.rename sourceDir shortcutName env.desktopPath).existsFile
        sourceDir shortcutName = false) := by
  refine ⟨?_, ?_, ?_, ?_⟩
  · intro h1
    simp [restoreShortcutToDesktop, h1]
  · intro h1 h2
    simp [restoreShortcutToDesktop, h1, h2]
  · intro fs1 hok
    by_cases h1 : fs.existsFile sourceDir shortcutName = true
    · by_cases h2 : fs.existsFile env.desktopPath shortcutName = true
      · simp [restoreShortcutToDesktop, h1, h2] at hok
      · simpa using h2
    · simp [restoreShortcutToDesktop, Bool.eq_false_iff.mpr h1] at hok
  · intro h1 h2 h3
    have hne : sourceDir ≠ env.desktopPath := by
      intro he
      rw [he, h2] at h1
      exact Bool.false_ne_true h1
    refine ⟨?_, existsFile_rename_self fs sourceDir shortcutName env.desktopPath h1,
      existsFile_rename_src fs sourceDir shortcutName env.desktopPath hne⟩
    simp [restoreShortcutToDesktop, h1, h2, h3]

/-- Witness for C2: on the sample filesystem, restoring `c.lnk` onto a
desktop that has no `c.lnk` succeeds and moves it, restoring a missing name
fails not-found, and restoring `a.lnk` (which is already on the desktop,
with a stale copy planted in the holding folder) fails already-exists. -/
theorem c2_restore_no_overwrite_witness :
    (restoreShortcutToDesktop envW fsW "c.lnk" "/home/u/FocusMode_Shortcuts" =
      .ok (fsW.rename "/home/u/FocusMode_Shortcuts" "c.lnk" "/home/u/Desktop") ∧
     (fsW.rename "/home/u/FocusMode_Shortcuts" "c.lnk" "/home/u/Desktop").existsFile
       "/home/u/Desktop" "c.lnk" = true ∧
     (fsW.rename "/home/u/FocusMode_Shortcuts" "c.lnk" "/home/u/Desktop").existsFile
       "/home/u/FocusMode_Shortcuts" "c.lnk" = false) ∧
    restoreShortcutToDesktop envW fsW "missing.lnk" "/home/u/FocusMode_Shortcuts" =
      .error (.notFound "missing.lnk") :=
  ⟨(c2_restore_no_overwrite envW fsW "c.lnk" "/home/u/FocusMode_Shortcuts").2.2.2
      (by decide) (by decide) (by decide),
   (c2_restore_no_overwrite envW fsW "missing.lnk" "/home/u/FocusMode_Shortcuts").1
      (by decide)⟩

/-- Claim C4: with `move_all` set (and a readable desktop), the candidate
set for organization is exactly the non-directory entries of the source
directory at the moment of the call — an entry name is a candidate if and
only if a non-directory entry of the desktop carries it, so sub-directories
are excluded; without `move_all`, the candidate list is exactly the
configured shortcuts list in declared order. -/
theorem c4_candidate_set (env : Env) (fs : FS) (modeConfig : ModeConfig) :
    (modeConfig.moveAll = true → fs.dirs.contains env.desktopPath = true →
      ∃ l, selectShortcutsToMove env fs modeConfig = .ok l ∧
        ∀ n, n ∈ l ↔ ∃ e, e ∈ fs.entries ∧ e.dir = env.desktopPath ∧ e.name = n ∧
          e.isDir = false) ∧
    (modeConfig.moveAll = false →
      selectShortcutsToMove env fs modeConfig = .ok modeConfig.shortcuts) := by
  constructor
  · intro hmove hdirs
    refine ⟨(fs.entries.filter
        (fun e => e.dir == env.desktopPath && !e.isDir)).map (fun e => e.name), ?_, ?_⟩
    · have hmem : env.desktopPath ∈ fs.dirs := by simpa using hdirs
      simp [selectShortcutsToMove, getAllDesktopShortcuts, getAllDesktopShortcutsFromPath,
        hmove, hmem]
    · intro n
      simp only [List.mem_map, List.mem_filter]
      constructor
      · rintro ⟨e, ⟨he, hp⟩, rfl⟩
        rw [Bool.and_eq_true, beq_iff_eq] at hp
        exact ⟨e, he, hp.1, rfl, by simpa using hp.2⟩
      · rintro ⟨e, he, hd, rfl, hnd⟩
        exact ⟨e, ⟨he, by simp [hd, hnd]⟩, rfl⟩
  · intro hmove
    simp [selectShortcutsToMove, hmove]

/-- Witness for C4 on the sample filesystem: with `move_all` the candidates
are characterized by the desktop's non-directory entries, and without it
they are the configured list. -/
theorem c4_candidate_set_witness :
    (∃ l, selectShortcutsToMove envW fsW
        { destination := "FocusMode_Shortcuts", shortcuts := [], moveAll := true } = .ok l ∧
      ∀ n, n ∈ l ↔ ∃ e, e ∈ fsW.entries ∧ e.dir = envW.desktopPath ∧ e.name = n ∧
        e.isDir = false) ∧
    selectShortcutsToMove envW fsW
        { destination := "FocusMode_Shortcuts", shortcuts := ["a.lnk"], moveAll := false } =
      .ok ["a.lnk"] :=
  ⟨(c4_candidate_set envW fsW
      { destination := "FocusMode_Shortcuts", shortcuts := [], moveAll := true }).1
      (by decide) (by decide),
   (c4_candidate_set envW fsW
      { destination := "FocusMode_Shortcuts", shortcuts := ["a.lnk"], moveAll := false }).2
      (by decide)⟩

theorem append_shortcuts_ne_empty (m : String) : m ++ "_Shortcuts" ≠ "" := by
  intro h
  have hl := congrArg String.length h
  rw [String.length_append] at hl
  simp at hl
  exact absurd hl.2 (by decide)

/-- Claim C5: mode lookup fails with the mode-not-found error carrying the
valid mode names exactly when the name is absent from the registry's mode
map; when present, it returns a configuration whose destination is the
stored one, or `"<modeName>_Shortcuts"` when the stored one is empty — in
either case non-empty. -/
theorem c5_mode_lookup (c : Config) (modeName : String) :
    (c.modes.lookup modeName = none →
      getModeConfig c modeName =
        .error (.modeNotFound modeName (getAvailableModes c))) ∧
    (∀ mc, c.modes.lookup modeName = some mc →
      ∃ out, getModeConfig c modeName = .ok out ∧
        out.destination =
          (if mc.destination = "" then modeName ++ "_Shortcuts" else mc.destination) ∧
        out.destination ≠ "") := by
  constructor
  · intro hl
    simp [getModeConfig, getModeConfigSt, hl]
  · intro mc hmc
    by_cases hdest : mc.destination = ""
    · refine ⟨{ mc with destination := modeName ++ "_Shortcuts" }, ?_, ?_, ?_⟩
      · simp [getModeConfig, getModeConfigSt, hmc, hdest]
      · simp [hdest]
      · exact append_shortcuts_ne_empty modeName
    · refine ⟨mc, ?_, ?_, hdest⟩
      · simp [getModeConfig, getModeConfigSt, hmc, hdest]
      · simp [hdest]

/-- Witness for C5 on the sample registry: a missing mode fails with the
error carrying the available modes, and the mode stored with an empty
destination comes back with the non-empty synthesized default. -/
theorem c5_mode_lookup_witness :
    getModeConfig cW "nosuch" = .error (.modeNotFound "nosuch" (getAvailableModes cW)) ∧
    ∃ out, getModeConfig cW "focusmode" = .ok out ∧
      out.destination = (if ("" : String) = "" then "focusmode" ++ "_Shortcuts" else "") ∧
      out.destination ≠ "" :=
  ⟨(c5_mode_lookup cW "nosuch").1 (by decide),
   (c5_mode_lookup cW "focusmode").2
     { destination := "", shortcuts := ["a.lnk"], moveAll := false } (by decide)⟩

/-- Claim C6: mode lookup never mutates the shared registry — after looking
up a mode whose stored destination is empty, the registry state returned by
the state-passing embedding still maps that mode to the configuration with
the empty destination, while the synthesized default appears only in the
returned copy. -/
theorem c6_lookup_no_mutation (c : Config) (modeName : String) (mc : ModeConfig)
    (hmc : c.modes.lookup modeName = some mc) (hdest : mc.destination = "") :
    (getModeConfigSt c modeName).2.modes.lookup modeName = some mc ∧
    ((getModeConfigSt c modeName).2.modes.lookup modeName).map
      (fun m => m.destination) = some "" ∧
    (getModeConfigSt c modeName).1 =
      .ok { mc with destination := modeName ++ "_Shortcuts" } := by
  refine ⟨?_, ?_, ?_⟩
  · simp [getModeConfigSt, hmc, hdest]
  · simp [getModeConfigSt, hmc, hdest]
  · simp [getModeConfigSt, hmc, hdest]

/-- Witness for C6 on the sample registry: looking up the mode stored with
an empty destination leaves the stored configuration unchanged while the
returned copy has the synthesized destination. -/
theorem c6_lookup_no_mutation_witness :
    (getModeConfigSt cW "focusmode").2.modes.lookup "focusmode" =
      some { destination := "", shortcuts := ["a.lnk"], moveAll := false } ∧
    ((getModeConfigSt cW "focusmode").2.modes.lookup "focusmode").map
      (fun m => m.destination) = some "" ∧
    (getModeConfigSt cW "focusmode").1 =
      .ok { destination := "focusmode" ++ "_Shortcuts", shortcuts := ["a.lnk"],
            moveAll := false } :=
  c6_lookup_no_mutation cW "focusmode"
    { destination := "", shortcuts := ["a.lnk"], moveAll := false } (by decide) (by decide)

theorem findFirstCategory_eq_find (cfg : CategoriesConfig) (nameLower : String) :
    ∀ order : List String,
      findFirstCategory cfg nameLower order =
        order.find? (specCategoryMatches cfg nameLower) := by
  intro order
  induction order with
  | nil => simp [findFirstCategory]
  | cons cid rest ih =>
      by_cases hother : cid = "other"
      · subst hother
        have hp : specCategoryMatches cfg nameLower "other" = false := by
          simp [specCategoryMatches]
        rw [findFirstCategory, if_pos (by simp)]
        simp [List.find?_cons, hp, ih]
      · rw [findFirstCategory, if_neg (by simp [hother])]
        cases hlk : cfg.categories.lookup cid with
        | none =>
            have hp : specCategoryMatches cfg nameLower cid = false := by
              simp [specCategoryMatches, hlk]
            simp [List.find?_cons, hp, ih]
        | some category =>
            by_cases hkw : keywordMatches nameLower category = true
            · have hp : specCategoryMatches cfg nameLower cid = true := by
                simp [specCategoryMatches, hlk, hkw, hother]
              simp [List.find?_cons, hp, hkw]
            · have hp : specCategoryMatches cfg nameLower cid = false := by
                simp [specCategoryMatches, hlk, Bool.eq_false_iff.mpr hkw]
              simp [List.find?_cons, hp, Bool.eq_false_iff.mpr hkw, ih]

/-- Claim C3: classification lower-cases the name, scans the explicit
`category_order` skipping the literal "other" entry, and returns the first
ordered category id one of whose keywords occurs case-insensitively inside
the name (`specCategoryMatches` restates this single-entry test from the
spec); when no ordered category matches it returns "other"; and repeated
calls on the same inputs return the same category. -/
theorem c3_classify_first_match_wins (name : String) (cfg : CategoriesConfig) :
    categorizeShortcut name cfg =
      (cfg.categoryOrder.find? (specCategoryMatches cfg (strToLower name))).getD "other" ∧
    categorizeShortcut name cfg = categorizeShortcut name cfg := by
  refine ⟨?_, rfl⟩
  rw [categorizeShortcut, findFirstCategory_eq_find]
  cases cfg.categoryOrder.find? (specCategoryMatches cfg (strToLower name)) with
  | none => simp
  | some cid => simp

/-- Claim C10: restoring a mode operates on the current contents of the
mode's holding directory, not on its configured shortcuts list — when the
holding directory exists, the attempted outcomes are exactly the
non-directory files found there (whatever the `shortcuts` field says), and
when it does not exist the restore returns normally with the filesystem
untouched and nothing attempted. -/
theorem c10_restore_uses_folder_contents (env : Env) (fs : FS) (config : Config)
    (modeName : String) (mc : ModeConfig)
    (hmc : getModeConfig config modeName = .ok mc) :
    (fs.dirs.contains (joinPath env.homeDir mc.destination) = false →
      restoreShortcutsForMode env fs config modeName false =
        (fs, .sourceMissing (joinPath env.homeDir mc.destination))) ∧
    (fs.dirs.contains (joinPath env.homeDir mc.destination) = true →
      ∃ fs1 outs, restoreShortcutsForMode env fs config modeName false = (fs1, .done outs) ∧
        outs.map (fun o => o.name) =
          (fs.entries.filter (fun e =>
            e.dir == joinPath env.homeDir mc.destination && !e.isDir)).map
            (fun e => e.name)) := by
  constructor
  · intro hdir
    have hnm : joinPath env.homeDir mc.destination ∉ fs.dirs := by simpa using hdir
    simp [restoreShortcutsForMode, hmc, hnm]
  · intro hdir
    have hmem : joinPath env.homeDir mc.destination ∈ fs.dirs := by simpa using hdir
    refine ⟨(restoreLoop env false (joinPath env.homeDir mc.destination) fs
        ((fs.entries.filter (fun e =>
          e.dir == joinPath env.homeDir mc.destination && !e.isDir)).map
          (fun e => e.name))).1,
      (restoreLoop env false (joinPath env.homeDir mc.destination) fs
        ((fs.entries.filter (fun e =>
          e.dir == joinPath env.homeDir mc.destination && !e.isDir)).map
          (fun e => e.name))).2, ?_, ?_⟩
    · simp [restoreShortcutsForMode, hmc, hdir, getShortcutsInFolder, hmem]
    · exact restoreLoop_names env false (joinPath env.homeDir mc.destination) _ fs

/-- Witness for C10 on the sample data: with the holding folder present the
outcome names are exactly its files (here `c.lnk`, even though the
configured list says `a.lnk`), and with the folder absent the restore
returns normally having attempted nothing. -/
theorem c10_restore_uses_folder_contents_witness :
    (∃ fs1 outs, restoreShortcutsForMode envW fsW cW2 "focusmode" false =
        (fs1, .done outs) ∧
      outs.map (fun o => o.name) =
        (fsW.entries.filter (fun e =>
          e.dir == joinPath envW.homeDir "FocusMode_Shortcuts" && !e.isDir)).map
          (fun e => e.name)) ∧
    restoreShortcutsForMode envW fsNoHolding cW2 "focusmode" false =
      (fsNoHolding, .sourceMissing (joinPath envW.homeDir "FocusMode_Shortcuts")) :=
  ⟨(c10_restore_uses_folder_contents envW fsW cW2 "focusmode"
      { destination := "FocusMode_Shortcuts", shortcuts := ["a.lnk"], moveAll := false }
      (by rfl)).2 (by decide),
   (c10_restore_uses_folder_contents envW fsNoHolding cW2 "focusmode"
      { destination := "FocusMode_Shortcuts", shortcuts := ["a.lnk"], moveAll := false }
      (by rfl)).1 (by decide)⟩

/-- Claim C7 (the session source is not under src/; `startFocusSession` is
modelled from the spec): starting with duration ≤ 0 fails with the
invalid-duration error, produces no session and performs no file moves (the
filesystem is returned unchanged); starting with duration > 0 and a mode
that resolves produces a session in Running with `startTime = now` and
`pausedTotal = 0` and immediately runs the organization loop over the
mode's candidates. -/
theorem c7_start_session (env : Env) (fs : FS) (config : Config) (modeName : String)
    (d : Int) (autoRestore : Bool) (now : Int) :
    (d ≤ 0 →
      startFocusSession env fs config modeName d autoRestore now =
        (.error (.invalidDuration d), fs)) ∧
    (0 < d → ∀ mc, getModeConfig config modeName = .ok mc →
      ∀ candidates, selectShortcutsToMove env fs mc = .ok candidates →
      startFocusSession env fs config modeName d autoRestore now =
        (.ok ({ duration := d * 60000000000, mode := modeName, startTime := now,
                pausedAt := none, pausedTotal := 0, state := .running,
                autoRestore := autoRestore },
              (moveShortcutsLoop env false (joinPath env.homeDir mc.destination) fs
                candidates).2),
         (moveShortcutsLoop env false (joinPath env.homeDir mc.destination) fs
           candidates).1)) := by
  constructor
  · intro hd
    simp [startFocusSession, hd]
  · intro hd mc hmc candidates hsel
    simp [startFocusSession, not_le.mpr hd, hmc, hsel]

/-- Witness for C7 on the sample data: a negative duration fails with the
invalid-duration error leaving the filesystem unchanged, and a positive
duration with the sample focus mode produces the Running session and runs
the move loop over the configured candidate. -/
theorem c7_start_session_witness :
    startFocusSession envW fsW cW2 "focusmode" (-5) true 1000 =
      (.error (.invalidDuration (-5)), fsW) ∧
    startFocusSession envW fsW cW2 "focusmode" 25 true 1000 =
      (.ok ({ duration := 25 * 60000000000, mode := "focusmode", startTime := 1000,
              pausedAt := none, pausedTotal := 0, state := .running,
              autoRestore := true },
            (moveShortcutsLoop envW false
              (joinPath envW.homeDir "FocusMode_Shortcuts") fsW ["a.lnk"]).2),
       (moveShortcutsLoop envW false
         (joinPath envW.homeDir "FocusMode_Shortcuts") fsW ["a.lnk"]).1) :=
  ⟨(c7_start_session envW fsW cW2 "focusmode" (-5) true 1000).1 (by decide),
   (c7_start_session envW fsW cW2 "focusmode" 25 true 1000).2 (by decide)
     { destination := "FocusMode_Shortcuts", shortcuts := ["a.lnk"], moveAll := false }
     (by rfl) ["a.lnk"] (by rfl)⟩
